import Mathlib

/-!
Verification development for the move-resolution engine of a deckbuilding
card-game simulator (`src/moves.py`).  The `Move` machinery below is a
shallow embedding of that file; the board/player/card collaborators, which
the source consumes through an external interface, are modelled from the
spec and marked as such.  The simple-effect handler is a black box in the
source and is therefore a parameter (`Handler`) here.
-/

namespace Ascension

inductive MoveType
  | acquire
  | defeat
  | play
  | activate
deriving DecidableEq, Repr

/-- A target map: Python dict from effect index to a list of card names. -/
abbrev TargetMap := List (Nat × List String)

def TargetMap.hasKey (tm : TargetMap) (i : Nat) : Bool :=
  tm.any (fun p => p.1 == i)

/-- `none` models Python `targets is None`; `some tm` a real dict. -/
abbrev Targets := Option TargetMap

inductive CompoundType
  | AND
  | OR
deriving DecidableEq, Repr

/-- Effect trees: `simple` is `card_decoder.effects.SimpleEffect` reduced to
its `effect_index`; `compound` carries a compound type and child effects. -/
inductive Effect
  | simple (effect_index : Nat)
  | compound (compound_type : CompoundType) (effects : List Effect)

structure Card where
  name : String
  cost : Nat
  lifebound : Bool
  hero : Bool
  construct : Bool
  effect : Effect

structure Move where
  move_type : MoveType
  card_name : String
  targets : Targets

/-- The error taxonomy of the spec; assertion failures in the source map to
the corresponding named error.  `typeError` models Python's `x in None`,
`outOfFuel` is the fuel bound on the recursion through synthesized moves. -/
inductive Err
  | invalidMoveShape
  | unknownCard
  | cardUnavailable
  | cardNotAvailable
  | insufficientResources
  | insufficientPower
  | constructNotInPlay
  | constructAlreadyActivated
  | ambiguousOrTarget
  | missingMandatoryTarget
  | typeError
  | outOfFuel
deriving DecidableEq, Repr

/-- `Move.__init__`: asserts that an acquire move carries no targets. -/
def Move.init (mt : MoveType) (cn : String) (tg : Targets) : Except Err Move :=
  match mt, tg with
  | MoveType.acquire, some _ => Except.error Err.invalidMoveShape
  | _, _ => Except.ok ⟨mt, cn, tg⟩

/-- Modelled from the spec: the current player's mutable state.  `moves` is
the player's personal move log; `resources` stands for the resource pools
consumed by the external payment logic. -/
structure Player where
  honor : Nat
  power_remaining : Nat
  honor_for_lifebound_hero : Nat
  honor_for_defeating_monster : Nat
  moves : List Move
  hand : List String
  in_play : List String
  activated_constructs : List String
  acquired : List String
  resources : Nat

/-- Modelled from the spec: the board exposes the current player, the
moves-played-this-turn log, the shared center row, the static card
dictionary and an event sink. -/
structure Board where
  player : Player
  moves_played_this_turn : List Move
  center : List Card
  card_dictionary : List Card
  events : List (String × String)

/-- Modelled from the spec: card lookup in the static card dictionary,
failing with `UnknownCard` if absent. -/
def Board.find_card (b : Board) (name : String) : Except Err Card :=
  match b.card_dictionary.find? (fun c => c.name == name) with
  | some c => Except.ok c
  | none => Except.error Err.unknownCard

/-- Modelled from the spec: removes the named card from the shared center
row, failing with `CardUnavailable` if it is absent. -/
def Board.remove_card_from_center (b : Board) (name : String) :
    Except Err (Card × Board) :=
  match b.center.find? (fun c => c.name == name) with
  | some c =>
    Except.ok (c, { b with center := b.center.eraseP (fun c => c.name == name) })
  | none => Except.error Err.cardUnavailable

/-- Modelled from the spec: grants honor to the current player. -/
def Board.give_honor (b : Board) (amount : Nat) : Board :=
  { b with player := { b.player with honor := b.player.honor + amount } }

/-- Modelled from the spec: fire-and-forget event dispatch
(`raise_strategy_card_events`). -/
def Board.raise_event (b : Board) (event_name : String) (card_name : String) :
    Board :=
  { b with events := b.events ++ [(event_name, card_name)] }

/-- Modelled from the spec: moves the named card from the player's hand into
play, failing with `CardNotAvailable` if it is not in hand. -/
def Player.play_card (p : Player) (name : String) : Except Err Player :=
  if p.hand.contains name then
    Except.ok { p with hand := p.hand.erase name, in_play := p.in_play ++ [name] }
  else Except.error Err.cardNotAvailable

/-- Modelled from the spec: pays the card's cost from the player's resource
pool, failing with `InsufficientResources` if unaffordable. -/
def Player.pay_for_acquired_card (p : Player) (c : Card) : Except Err Player :=
  if c.cost ≤ p.resources then Except.ok { p with resources := p.resources - c.cost }
  else Except.error Err.insufficientResources

/-- Modelled from the spec: adds the card to the player's acquired pile. -/
def Player.acquire (p : Player) (c : Card) : Player :=
  { p with acquired := p.acquired ++ [c.name] }

/-- Modelled from the spec: requires the named construct be in play and not
already activated this turn, then marks it activated. -/
def Player.activate_construct (p : Player) (name : String) : Except Err Player :=
  if p.in_play.contains name then
    if p.activated_constructs.contains name then
      Except.error Err.constructAlreadyActivated
    else Except.ok { p with activated_constructs := p.activated_constructs ++ [name] }
  else Except.error Err.constructNotInPlay

/-- A synthesized move descriptor `(move_type, card_name, targets)` as
returned by the simple-effect handler. -/
abbrev MoveDesc := MoveType × String × Targets

/-- The external `apply_simple_effect`: mutates the board and returns the
synthesized move descriptors.  A black box in the source, a parameter here;
the `Nat` is the atomic effect's `effect_index`. -/
abbrev Handler := Board → Nat → Targets → Board × List MoveDesc

mutual

/-- Inner helper of `Move._activate_effects`: flattens an effect subtree to
its atomic effects' indices, depth-first, preserving declaration order. -/
def get_effect_list : Effect → List Nat
  | Effect.simple i => [i]
  | Effect.compound _ es => get_effect_list_of_children es

def get_effect_list_of_children : List Effect → List Nat
  | [] => []
  | e :: rest => get_effect_list e ++ get_effect_list_of_children rest

end

/-- The filter `[e for e in get_effect_list(effect) if e.effect_index in
self.targets]`.  With `targets = None` the membership test raises a
`TypeError` in Python as soon as one element is examined. -/
def keys_filter (tg : Targets) (l : List Nat) : Except Err (List Nat) :=
  match tg with
  | some tm => Except.ok (l.filter (fun i => TargetMap.hasKey tm i))
  | none =>
    match l with
    | [] => Except.ok []
    | _ :: _ => Except.error Err.typeError

/-- The one-shot lifebound-hero honor grant of `Move.apply_play`. -/
def lifebound_hero_honor (b : Board) (card : Card) : Board :=
  if card.lifebound && card.hero then
    let bh := b.give_honor b.player.honor_for_lifebound_hero
    { bh with player := { bh.player with honor_for_lifebound_hero := 0 } }
  else b

/-- The one-shot monster-defeat honor grant of `Move.apply_defeat`, with its
explicit exclusion of the card named "Cultist". -/
def defeat_monster_honor (b : Board) (card : Card) : Board :=
  if card.name ≠ "Cultist" then
    let bh := b.give_honor b.player.honor_for_defeating_monster
    { bh with player := { bh.player with honor_for_defeating_monster := 0 } }
  else b

mutual

/-- `Move.apply_to_board(board, should_add_to_moves)`: optionally records
the move in both logs, then dispatches by move type.  `fuel` bounds the
recursion through effect-synthesized moves. -/
def apply_to_board (h : Handler) (fuel : Nat) (m : Move) (b : Board)
    (record : Bool) : Except Err Board :=
  match fuel with
  | 0 => Except.error Err.outOfFuel
  | fuel + 1 =>
    let b :=
      if record then
        { b with
          player := { b.player with moves := b.player.moves ++ [m] },
          moves_played_this_turn := b.moves_played_this_turn ++ [m] }
      else b
    match m.move_type with
    | MoveType.play => apply_play h fuel m b
    | MoveType.acquire => apply_acquire h fuel m b
    | MoveType.defeat => apply_defeat h fuel m b
    | MoveType.activate => apply_activate h fuel m b
termination_by (fuel, 0, 0)

/-- `Move.apply_play`. -/
def apply_play (h : Handler) (fuel : Nat) (m : Move) (b : Board) :
    Except Err Board := do
  let card ← b.find_card m.card_name
  let b := lifebound_hero_honor b card
  let p ← b.player.play_card m.card_name
  let b := { b with player := p }
  if card.construct then pure b
  else activate_card_effects h fuel m b
termination_by (fuel, 6, 0)

/-- `Move.apply_acquire`: re-asserts the absence of targets at apply time. -/
def apply_acquire (_h : Handler) (_fuel : Nat) (m : Move) (b : Board) :
    Except Err Board :=
  match m.targets with
  | some _ => Except.error Err.invalidMoveShape
  | none => do
    let cb ← b.remove_card_from_center m.card_name
    let p ← cb.2.player.pay_for_acquired_card cb.1
    let b := { cb.2 with player := p.acquire cb.1 }
    pure (b.raise_event "acquired_card" m.card_name)

/-- `Move.apply_defeat`. -/
def apply_defeat (h : Handler) (fuel : Nat) (m : Move) (b : Board) :
    Except Err Board := do
  let cb ← b.remove_card_from_center m.card_name
  let card := cb.1
  let b := cb.2
  if card.cost ≤ b.player.power_remaining then
    let b := { b with
      player := { b.player with
        power_remaining := b.player.power_remaining - card.cost } }
    let b := defeat_monster_honor b card
    let b ← activate_card_effects h fuel m b
    pure (b.raise_event "defeated_card" m.card_name)
  else Except.error Err.insufficientPower
termination_by (fuel, 6, 0)

/-- `Move.apply_activate`: marks the construct activated, then resolves its
effect tree. -/
def apply_activate (h : Handler) (fuel : Nat) (m : Move) (b : Board) :
    Except Err Board := do
  let p ← b.player.activate_construct m.card_name
  activate_card_effects h fuel m { b with player := p }
termination_by (fuel, 6, 0)

/-- `Move._activate_card_effects`: looks the card up and resolves its root
effect. -/
def activate_card_effects (h : Handler) (fuel : Nat) (m : Move) (b : Board) :
    Except Err Board := do
  let card ← b.find_card m.card_name
  activate_effects h fuel m b card.effect
termination_by (fuel, 5, 0)

/-- `Move._activate_effects`: atomic effects invoke the handler; compound
effects flatten, filter by target-map key, then apply AND / OR semantics. -/
def activate_effects (h : Handler) (fuel : Nat) (m : Move) (b : Board) :
    Effect → Except Err Board
  | Effect.simple i => activate_atom h fuel m b i
  | Effect.compound ct es => do
    let sel ← keys_filter m.targets (get_effect_list (Effect.compound ct es))
    match ct with
    | CompoundType.AND => activate_list h fuel m b sel
    | CompoundType.OR =>
      match sel with
      | [i] => activate_atom h fuel m b i
      | _ => Except.error Err.ambiguousOrTarget
termination_by _e => (fuel, 4, 0)

/-- The AND loop of `Move._activate_effects`, over the filtered atoms. -/
def activate_list (h : Handler) (fuel : Nat) (m : Move) (b : Board) :
    List Nat → Except Err Board
  | [] => Except.ok b
  | i :: rest => do
    let b ← activate_atom h fuel m b i
    activate_list h fuel m b rest
termination_by l => (fuel, 3, l.length)

/-- The atomic branch of `Move._activate_effects`: invoke the handler, then
apply each synthesized move. -/
def activate_atom (h : Handler) (fuel : Nat) (m : Move) (b : Board) (i : Nat) :
    Except Err Board :=
  let hb := h b i m.targets
  apply_pending h fuel hb.1 hb.2
termination_by (fuel, 2, 0)

/-- The loop over `pending_moves`: each descriptor is constructed as a new
`Move` and applied with `record := false`, in order. -/
def apply_pending (h : Handler) (fuel : Nat) (b : Board) :
    List MoveDesc → Except Err Board
  | [] => Except.ok b
  | d :: rest => do
    let mv ← Move.init d.1 d.2.1 d.2.2
    let b ← apply_to_board h fuel mv b false
    apply_pending h fuel b rest
termination_by l => (fuel, 1, l.length)

end

end Ascension

namespace Ascension

/-! ### Basic reduction lemmas for the `Except` monad and the filter -/

@[simp] theorem exbind_ok {α β : Type} (a : α) (f : α → Except Err β) :
    (Except.ok a >>= f) = f a := rfl

@[simp] theorem exbind_error {α β : Type} (e : Err) (f : α → Except Err β) :
    ((Except.error e : Except Err α) >>= f) = Except.error e := rfl

@[simp] theorem exmap_ok {α β : Type} (a : α) (f : α → β) :
    (f <$> (Except.ok a : Except Err α)) = Except.ok (f a) := rfl

@[simp] theorem exmap_error {α β : Type} (e : Err) (f : α → β) :
    (f <$> (Except.error e : Except Err α)) = (Except.error e : Except Err β) := rfl

@[simp] theorem expure {α : Type} (a : α) :
    (pure a : Except Err α) = Except.ok a := rfl

theorem keys_filter_some (tm : TargetMap) (l : List Nat) :
    keys_filter (some tm) l = Except.ok (l.filter (fun i => TargetMap.hasKey tm i)) := rfl

theorem get_effect_list_children_eq (es : List Effect) :
    get_effect_list_of_children es = es.flatMap get_effect_list := by
  induction es with
  | nil => simp [get_effect_list_of_children]
  | cons e rest ih => simp [get_effect_list_of_children, ih]

/-! ### Resolution depends on the move only through its target map -/

theorem activate_atom_congr (h : Handler) (fuel : Nat) (m1 m2 : Move)
    (b : Board) (i : Nat) (hi : h b i m1.targets = h b i m2.targets) :
    activate_atom h fuel m1 b i = activate_atom h fuel m2 b i := by
  simp only [activate_atom, hi]

theorem activate_list_congr (h : Handler) (fuel : Nat) (m1 m2 : Move)
    (hl : ∀ b i, h b i m1.targets = h b i m2.targets) :
    ∀ (l : List Nat) (b : Board),
      activate_list h fuel m1 b l = activate_list h fuel m2 b l := by
  intro l
  induction l with
  | nil => intro b; simp [activate_list]
  | cons i rest ih =>
    intro b
    simp only [activate_list]
    rw [activate_atom_congr h fuel m1 m2 b i (hl b i)]
    cases hx : activate_atom h fuel m2 b i with
    | error e => simp
    | ok b2 => simp [ih b2]

theorem activate_effects_congr (h : Handler) (fuel : Nat) (m1 m2 : Move)
    (htg : m1.targets = m2.targets)
    (hl : ∀ b i, h b i m1.targets = h b i m2.targets) :
    ∀ (e : Effect) (b : Board),
      activate_effects h fuel m1 b e = activate_effects h fuel m2 b e := by
  intro e b
  cases e with
  | simple i => simp only [activate_effects]; exact activate_atom_congr h fuel m1 m2 b i (hl b i)
  | compound ct es =>
    simp only [activate_effects, htg]
    cases hk : keys_filter m2.targets (get_effect_list (Effect.compound ct es)) with
    | error e2 => simp
    | ok sel =>
      simp only [exbind_ok]
      cases ct with
      | AND => exact activate_list_congr h fuel m1 m2 hl sel b
      | OR =>
        cases sel with
        | nil => rfl
        | cons i rest =>
          cases rest with
          | nil => exact activate_atom_congr h fuel m1 m2 b i (hl b i)
          | cons j rest2 => rfl

end Ascension

namespace Ascension

/-! ### Concrete objects for witnesses and counterexamples -/

/-- The handler that mutates nothing and synthesizes no moves. -/
def trivHandler : Handler := fun b _ _ => (b, [])

def demoPlayer : Player :=
  { honor := 0, power_remaining := 5, honor_for_lifebound_hero := 2,
    honor_for_defeating_monster := 3, moves := [], hand := ["Mystic"],
    in_play := [], activated_constructs := [], acquired := [], resources := 4 }

def demoCard : Card :=
  { name := "Mystic", cost := 3, lifebound := false, hero := false,
    construct := false,
    effect := Effect.compound CompoundType.AND [Effect.simple 0, Effect.simple 1] }

def demoBoard : Board :=
  { player := demoPlayer, moves_played_this_turn := [], center := [demoCard],
    card_dictionary := [demoCard], events := [] }

/-! ### Claim theorems -/

/-- Claim C1: resolving an OR compound activates an atomic effect exactly
when the flattened-and-filtered list of atomic effects whose identifier is a
key of the target map is a singleton; with zero or more than one entries it
fails with `AmbiguousOrTarget`, never silently picking a branch. -/
theorem C1_or_exactly_one (h : Handler) (fuel : Nat) (m : Move) (b : Board)
    (es : List Effect) (tm : TargetMap) (htm : m.targets = some tm) :
    activate_effects h fuel m b (Effect.compound CompoundType.OR es) =
      match (get_effect_list (Effect.compound CompoundType.OR es)).filter
          (fun i => TargetMap.hasKey tm i) with
      | [i] => activate_atom h fuel m b i
      | _ => Except.error Err.ambiguousOrTarget := by
  simp only [activate_effects, htm, keys_filter_some, exbind_ok]

theorem C1_witness :
    activate_effects trivHandler 1 ⟨MoveType.play, "Mystic", some [(0, [])]⟩
        demoBoard (Effect.compound CompoundType.OR [Effect.simple 0, Effect.simple 1]) =
      match (get_effect_list (Effect.compound CompoundType.OR
          [Effect.simple 0, Effect.simple 1])).filter
          (fun i => TargetMap.hasKey [(0, [])] i) with
      | [i] => activate_atom trivHandler 1 ⟨MoveType.play, "Mystic", some [(0, [])]⟩ demoBoard i
      | _ => Except.error Err.ambiguousOrTarget :=
  C1_or_exactly_one trivHandler 1 ⟨MoveType.play, "Mystic", some [(0, [])]⟩
    demoBoard [Effect.simple 0, Effect.simple 1] [(0, [])] rfl

/-- Claim C2: compound resolution flattens the full subtree depth-first in
declaration order, filters to the atoms whose identifier is a key of the
target map, and an AND compound activates exactly the filtered atoms,
sequentially in that order; every activated atom has a key (keyless atoms
are skipped). -/
theorem C2_and_flatten_filter (h : Handler) (fuel : Nat) (m : Move)
    (b b2 : Board) (ct : CompoundType) (es : List Effect) (tm : TargetMap)
    (i : Nat) (rest : List Nat) (htm : m.targets = some tm) :
    get_effect_list (Effect.compound ct es) = es.flatMap get_effect_list
    ∧ activate_effects h fuel m b (Effect.compound CompoundType.AND es) =
        activate_list h fuel m b
          ((es.flatMap get_effect_list).filter (fun j => TargetMap.hasKey tm j))
    ∧ ((es.flatMap get_effect_list).filter (fun j => TargetMap.hasKey tm j)).all
        (fun j => TargetMap.hasKey tm j) = true
    ∧ activate_list h fuel m b2 (i :: rest) =
        (activate_atom h fuel m b2 i >>= fun b3 => activate_list h fuel m b3 rest) := by
  refine ⟨get_effect_list_children_eq es, ?_, ?_, ?_⟩
  · simp only [activate_effects, htm, keys_filter_some, exbind_ok,
      get_effect_list, get_effect_list_children_eq]
  · simp only [List.all_eq_true]
    intro j hj
    exact (List.mem_filter.mp hj).2
  · simp only [activate_list]

theorem C2_witness :
    get_effect_list (Effect.compound CompoundType.AND
        [Effect.simple 0, Effect.compound CompoundType.AND [Effect.simple 1]]) =
      [Effect.simple 0, Effect.compound CompoundType.AND [Effect.simple 1]].flatMap
        get_effect_list
    ∧ activate_effects trivHandler 1 ⟨MoveType.play, "Mystic", some [(1, ["X"])]⟩
        demoBoard (Effect.compound CompoundType.AND
          [Effect.simple 0, Effect.compound CompoundType.AND [Effect.simple 1]]) =
        activate_list trivHandler 1 ⟨MoveType.play, "Mystic", some [(1, ["X"])]⟩ demoBoard
          (([Effect.simple 0, Effect.compound CompoundType.AND [Effect.simple 1]].flatMap
            get_effect_list).filter (fun j => TargetMap.hasKey [(1, ["X"])] j))
    ∧ (([Effect.simple 0, Effect.compound CompoundType.AND [Effect.simple 1]].flatMap
          get_effect_list).filter (fun j => TargetMap.hasKey [(1, ["X"])] j)).all
        (fun j => TargetMap.hasKey [(1, ["X"])] j) = true
    ∧ activate_list trivHandler 1 ⟨MoveType.play, "Mystic", some [(1, ["X"])]⟩
        demoBoard [1] =
        (activate_atom trivHandler 1 ⟨MoveType.play, "Mystic", some [(1, ["X"])]⟩ demoBoard 1 >>=
          fun b3 => activate_list trivHandler 1 ⟨MoveType.play, "Mystic", some [(1, ["X"])]⟩ b3 []) :=
  C2_and_flatten_filter trivHandler 1 ⟨MoveType.play, "Mystic", some [(1, ["X"])]⟩
    demoBoard demoBoard CompoundType.AND
    [Effect.simple 0, Effect.compound CompoundType.AND [Effect.simple 1]]
    [(1, ["X"])] 1 [] rfl

end Ascension

namespace Ascension

/-- Claim C3, counterexample: an AND compound whose single atomic effect
(mandatory or not — the resolver never consults any mandatory marking) has
no key in the target map resolves successfully, skipping the effect, instead
of failing with `MissingMandatoryTarget`. -/
theorem C3_counterexample :
    activate_effects trivHandler 1 ⟨MoveType.play, "Mystic", some []⟩ demoBoard
      (Effect.compound CompoundType.AND [Effect.simple 0]) = Except.ok demoBoard := by
  simp [activate_effects, keys_filter_some, activate_list, get_effect_list,
    get_effect_list_of_children, TargetMap.hasKey]

/-- Claim C3, amended: an AND-branch atomic effect whose identifier has no
key in the target map is excluded from the activation list and resolution
proceeds with the remaining effects — it is skipped, regardless of any
mandatory marking in the card definition, and no `MissingMandatoryTarget`
failure is raised by the resolver. -/
theorem C3_and_keyless_skipped (h : Handler) (fuel : Nat) (m : Move)
    (b : Board) (es : List Effect) (tm : TargetMap) (i : Nat)
    (htm : m.targets = some tm)
    (_hi : i ∈ get_effect_list (Effect.compound CompoundType.AND es))
    (hk : TargetMap.hasKey tm i = false) :
    activate_effects h fuel m b (Effect.compound CompoundType.AND es) =
      activate_list h fuel m b
        ((get_effect_list (Effect.compound CompoundType.AND es)).filter
          (fun j => TargetMap.hasKey tm j))
    ∧ i ∉ (get_effect_list (Effect.compound CompoundType.AND es)).filter
        (fun j => TargetMap.hasKey tm j) := by
  constructor
  · simp only [activate_effects, htm, keys_filter_some, exbind_ok]
  · intro hmem
    rw [List.mem_filter] at hmem
    rw [hmem.2] at hk
    exact absurd hk (by simp)

theorem C3_witness :
    activate_effects trivHandler 1 ⟨MoveType.play, "Mystic", some []⟩ demoBoard
      (Effect.compound CompoundType.AND [Effect.simple 0]) =
        activate_list trivHandler 1 ⟨MoveType.play, "Mystic", some []⟩ demoBoard
          ((get_effect_list (Effect.compound CompoundType.AND [Effect.simple 0])).filter
            (fun j => TargetMap.hasKey [] j))
    ∧ 0 ∉ (get_effect_list (Effect.compound CompoundType.AND [Effect.simple 0])).filter
        (fun j => TargetMap.hasKey [] j) :=
  C3_and_keyless_skipped trivHandler 1 ⟨MoveType.play, "Mystic", some []⟩ demoBoard
    [Effect.simple 0] [] 0 rfl (by simp [get_effect_list, get_effect_list_of_children])
    (by rfl)

/-- Claim C5: constructing a Move with move type Acquire and a non-absent
target map fails with `InvalidMoveShape`, and the absence of targets is
re-asserted when an Acquire move is applied: applying such a move also fails
with `InvalidMoveShape`, whatever the fuel, board or record flag. -/
theorem C5_acquire_targets (h : Handler) (fuel : Nat) (cn : String)
    (tm : TargetMap) (b : Board) (record : Bool) :
    Move.init MoveType.acquire cn (some tm) = Except.error Err.invalidMoveShape
    ∧ apply_to_board h (fuel + 1) ⟨MoveType.acquire, cn, some tm⟩ b record =
        Except.error Err.invalidMoveShape := by
  refine ⟨rfl, ?_⟩
  cases record <;> simp [apply_to_board, apply_acquire]

/-- Claim C9: effect resolution is deterministic — it is a pure function of
the effect tree, the target map and the board state, so resolving the same
tree with the same target map from the same board activates the identical
atomic effects in the identical order and returns the identical result. -/
theorem C9_deterministic (h : Handler) (fuel : Nat) (m1 m2 : Move)
    (b1 b2 : Board) (e1 e2 : Effect) (htg : m1.targets = m2.targets)
    (hb : b1 = b2) (he : e1 = e2) :
    activate_effects h fuel m1 b1 e1 = activate_effects h fuel m2 b2 e2 := by
  subst hb he
  exact activate_effects_congr h fuel m1 m2 htg (fun b i => by rw [htg]) e1 b1

theorem C9_witness :
    activate_effects trivHandler 1 ⟨MoveType.play, "Mystic", some [(0, [])]⟩ demoBoard
        (Effect.compound CompoundType.OR [Effect.simple 0, Effect.simple 1]) =
      activate_effects trivHandler 1 ⟨MoveType.defeat, "Mystic", some [(0, [])]⟩ demoBoard
        (Effect.compound CompoundType.OR [Effect.simple 0, Effect.simple 1]) :=
  C9_deterministic trivHandler 1 ⟨MoveType.play, "Mystic", some [(0, [])]⟩
    ⟨MoveType.defeat, "Mystic", some [(0, [])]⟩ demoBoard demoBoard
    (Effect.compound CompoundType.OR [Effect.simple 0, Effect.simple 1])
    (Effect.compound CompoundType.OR [Effect.simple 0, Effect.simple 1]) rfl rfl rfl

end Ascension

namespace Ascension

theorem hasKey_cons (k : Nat) (v : List String) (tm : TargetMap) (i : Nat) :
    TargetMap.hasKey ((k, v) :: tm) i = (k == i || TargetMap.hasKey tm i) := by
  simp [TargetMap.hasKey]

theorem filter_extraneous (l : List Nat) (tm : TargetMap) (k : Nat)
    (v : List String) (hk : k ∉ l) :
    l.filter (fun i => TargetMap.hasKey ((k, v) :: tm) i) =
      l.filter (fun i => TargetMap.hasKey tm i) := by
  apply List.filter_congr
  intro i hi
  rw [hasKey_cons]
  have : k ≠ i := fun hki => hk (hki ▸ hi)
  simp [this]

/-- Claim C10: a target-map key that is not the identifier of any atomic
effect in the effect tree does not affect resolution — with a handler that
is likewise insensitive to the extraneous key, the filtered activation list
and the whole resolution result are unchanged by adding the key. -/
theorem C10_extraneous_keys (h : Handler) (fuel : Nat) (m1 m2 : Move)
    (b : Board) (ct : CompoundType) (es : List Effect) (tm : TargetMap)
    (k : Nat) (v : List String)
    (hk : k ∉ get_effect_list (Effect.compound ct es))
    (hm1 : m1.targets = some ((k, v) :: tm)) (hm2 : m2.targets = some tm)
    (hh : ∀ b2 i, h b2 i (some ((k, v) :: tm)) = h b2 i (some tm)) :
    (get_effect_list (Effect.compound ct es)).filter
        (fun i => TargetMap.hasKey ((k, v) :: tm) i) =
      (get_effect_list (Effect.compound ct es)).filter
        (fun i => TargetMap.hasKey tm i)
    ∧ activate_effects h fuel m1 b (Effect.compound ct es) =
        activate_effects h fuel m2 b (Effect.compound ct es) := by
  have hfil := filter_extraneous (get_effect_list (Effect.compound ct es)) tm k v hk
  refine ⟨hfil, ?_⟩
  have hl : ∀ b2 i, h b2 i m1.targets = h b2 i m2.targets := by
    intro b2 i; rw [hm1, hm2]; exact hh b2 i
  simp only [activate_effects, hm1, hm2, keys_filter_some, exbind_ok, hfil]
  cases ct with
  | AND => exact activate_list_congr h fuel m1 m2 hl _ b
  | OR =>
    cases hsel : (get_effect_list (Effect.compound CompoundType.OR es)).filter
        (fun i => TargetMap.hasKey tm i) with
    | nil => rfl
    | cons i rest =>
      cases rest with
      | nil => exact activate_atom_congr h fuel m1 m2 b i (hl b i)
      | cons j rest2 => rfl

theorem C10_witness :
    (get_effect_list (Effect.compound CompoundType.AND
        [Effect.simple 0, Effect.simple 1])).filter
        (fun i => TargetMap.hasKey ((7, ["Z"]) :: [(0, [])]) i) =
      (get_effect_list (Effect.compound CompoundType.AND
        [Effect.simple 0, Effect.simple 1])).filter
        (fun i => TargetMap.hasKey [(0, [])] i)
    ∧ activate_effects trivHandler 1 ⟨MoveType.play, "Mystic", some ((7, ["Z"]) :: [(0, [])])⟩
        demoBoard (Effect.compound CompoundType.AND [Effect.simple 0, Effect.simple 1]) =
      activate_effects trivHandler 1 ⟨MoveType.play, "Mystic", some [(0, [])]⟩
        demoBoard (Effect.compound CompoundType.AND [Effect.simple 0, Effect.simple 1]) :=
  C10_extraneous_keys trivHandler 1
    ⟨MoveType.play, "Mystic", some ((7, ["Z"]) :: [(0, [])])⟩
    ⟨MoveType.play, "Mystic", some [(0, [])]⟩ demoBoard CompoundType.AND
    [Effect.simple 0, Effect.simple 1] [(0, [])] 7 ["Z"]
    (by simp [get_effect_list, get_effect_list_of_children])
    rfl rfl (fun b2 i => rfl)

end Ascension

namespace Ascension

/-! ### Move logs: preservation through unrecorded application (for C4) -/

theorem bind_eq_ok {α β : Type} {x : Except Err α} {f : α → Except Err β}
    {b2 : β} (he : (x >>= f) = Except.ok b2) :
    ∃ a, x = Except.ok a ∧ f a = Except.ok b2 := by
  cases x with
  | error e => simp at he
  | ok a => exact ⟨a, rfl, he⟩

def LogsEq (b b2 : Board) : Prop :=
  b2.player.moves = b.player.moves ∧
  b2.moves_played_this_turn = b.moves_played_this_turn

theorem logsEq_refl (b : Board) : LogsEq b b := ⟨rfl, rfl⟩

theorem logsEq_trans {a b c : Board} (h1 : LogsEq a b) (h2 : LogsEq b c) :
    LogsEq a c := ⟨h2.1.trans h1.1, h2.2.trans h1.2⟩

/-- The frame condition on the external handler needed for C4: applying a
simple effect never touches the move logs. -/
def HandlerPreservesLogs (h : Handler) : Prop :=
  ∀ b i tg, LogsEq b (h b i tg).1

theorem remove_center_ok {b : Board} {n : String} {cb : Card × Board}
    (hr : b.remove_card_from_center n = Except.ok cb) :
    cb.2.player = b.player ∧
    cb.2.moves_played_this_turn = b.moves_played_this_turn ∧
    cb.2.card_dictionary = b.card_dictionary := by
  unfold Board.remove_card_from_center at hr
  cases hfind : b.center.find? (fun c2 => c2.name == n) with
  | none => rw [hfind] at hr; cases hr
  | some c2 =>
    rw [hfind] at hr
    simp only [Except.ok.injEq] at hr
    subst hr
    exact ⟨rfl, rfl, rfl⟩

theorem play_card_ok {p p2 : Player} {n : String}
    (hp : p.play_card n = Except.ok p2) : p2.moves = p.moves := by
  unfold Player.play_card at hp
  split at hp
  · simp only [Except.ok.injEq] at hp; subst hp; rfl
  · cases hp

theorem pay_ok {p p2 : Player} {c : Card}
    (hp : p.pay_for_acquired_card c = Except.ok p2) : p2.moves = p.moves := by
  unfold Player.pay_for_acquired_card at hp
  split at hp
  · simp only [Except.ok.injEq] at hp; subst hp; rfl
  · cases hp

theorem activate_construct_ok {p p2 : Player} {n : String}
    (hp : p.activate_construct n = Except.ok p2) :
    p2.moves = p.moves ∧
    p2.activated_constructs = p.activated_constructs ++ [n] := by
  unfold Player.activate_construct at hp
  split at hp
  · split at hp
    · cases hp
    · simp only [Except.ok.injEq] at hp; subst hp; exact ⟨rfl, rfl⟩
  · cases hp

theorem lifebound_honor_logs (b : Board) (card : Card) :
    LogsEq b (lifebound_hero_honor b card) ∧
    (lifebound_hero_honor b card).player.hand = b.player.hand := by
  unfold lifebound_hero_honor Board.give_honor
  split
  · exact ⟨⟨rfl, rfl⟩, rfl⟩
  · exact ⟨logsEq_refl b, rfl⟩

theorem defeat_honor_logs (b : Board) (card : Card) :
    LogsEq b (defeat_monster_honor b card) := by
  unfold defeat_monster_honor Board.give_honor
  split
  · exact ⟨rfl, rfl⟩
  · exact logsEq_refl b

theorem raise_event_logs (b : Board) (en cn : String) :
    LogsEq b (b.raise_event en cn) := ⟨rfl, rfl⟩

end Ascension

namespace Ascension

theorem pending_logs {h : Handler} (_hp : HandlerPreservesLogs h) (fuel : Nat)
    (hA : ∀ m b b2, apply_to_board h fuel m b false = Except.ok b2 → LogsEq b b2) :
    ∀ (l : List MoveDesc) (b b2 : Board),
      apply_pending h fuel b l = Except.ok b2 → LogsEq b b2 := by
  intro l
  induction l with
  | nil =>
    intro b b2 he
    simp only [apply_pending, Except.ok.injEq] at he
    subst he
    exact logsEq_refl b
  | cons d rest ih =>
    intro b b2 he
    simp only [apply_pending] at he
    obtain ⟨mv, _, he⟩ := bind_eq_ok he
    obtain ⟨b3, hatb, he⟩ := bind_eq_ok he
    exact logsEq_trans (hA mv b b3 hatb) (ih b3 b2 he)

theorem atom_logs {h : Handler} (hp : HandlerPreservesLogs h) (fuel : Nat)
    (hA : ∀ m b b2, apply_to_board h fuel m b false = Except.ok b2 → LogsEq b b2) :
    ∀ (m : Move) (b : Board) (i : Nat) (b2 : Board),
      activate_atom h fuel m b i = Except.ok b2 → LogsEq b b2 := by
  intro m b i b2 he
  simp only [activate_atom] at he
  exact logsEq_trans (hp b i m.targets) (pending_logs hp fuel hA _ _ _ he)

theorem list_logs {h : Handler} (hp : HandlerPreservesLogs h) (fuel : Nat)
    (hA : ∀ m b b2, apply_to_board h fuel m b false = Except.ok b2 → LogsEq b b2) :
    ∀ (l : List Nat) (m : Move) (b b2 : Board),
      activate_list h fuel m b l = Except.ok b2 → LogsEq b b2 := by
  intro l
  induction l with
  | nil =>
    intro m b b2 he
    simp only [activate_list, Except.ok.injEq] at he
    subst he
    exact logsEq_refl b
  | cons i rest ih =>
    intro m b b2 he
    simp only [activate_list] at he
    obtain ⟨b3, hat, he⟩ := bind_eq_ok he
    exact logsEq_trans (atom_logs hp fuel hA m b i b3 hat) (ih m b3 b2 he)

theorem effects_logs {h : Handler} (hp : HandlerPreservesLogs h) (fuel : Nat)
    (hA : ∀ m b b2, apply_to_board h fuel m b false = Except.ok b2 → LogsEq b b2) :
    ∀ (e : Effect) (m : Move) (b b2 : Board),
      activate_effects h fuel m b e = Except.ok b2 → LogsEq b b2 := by
  intro e m b b2 he
  cases e with
  | simple i =>
    simp only [activate_effects] at he
    exact atom_logs hp fuel hA m b i b2 he
  | compound ct es =>
    simp only [activate_effects] at he
    obtain ⟨sel, _, he⟩ := bind_eq_ok he
    cases ct with
    | AND => exact list_logs hp fuel hA sel m b b2 he
    | OR =>
      cases sel with
      | nil => exact absurd he (by simp)
      | cons i rest =>
        cases rest with
        | nil => exact atom_logs hp fuel hA m b i b2 he
        | cons j r2 => exact absurd he (by simp)

theorem card_effects_logs {h : Handler} (hp : HandlerPreservesLogs h) (fuel : Nat)
    (hA : ∀ m b b2, apply_to_board h fuel m b false = Except.ok b2 → LogsEq b b2) :
    ∀ (m : Move) (b b2 : Board),
      activate_card_effects h fuel m b = Except.ok b2 → LogsEq b b2 := by
  intro m b b2 he
  simp only [activate_card_effects] at he
  obtain ⟨card, _, he⟩ := bind_eq_ok he
  exact effects_logs hp fuel hA card.effect m b b2 he

theorem play_logs {h : Handler} (hp : HandlerPreservesLogs h) (fuel : Nat)
    (hA : ∀ m b b2, apply_to_board h fuel m b false = Except.ok b2 → LogsEq b b2) :
    ∀ (m : Move) (b b2 : Board),
      apply_play h fuel m b = Except.ok b2 → LogsEq b b2 := by
  intro m b b2 he
  simp only [apply_play] at he
  obtain ⟨card, _, he⟩ := bind_eq_ok he
  obtain ⟨p, hpc, he⟩ := bind_eq_ok he
  have hlb := (lifebound_honor_logs b card).1
  have hmv := play_card_ok hpc
  have hstep : LogsEq b { lifebound_hero_honor b card with player := p } :=
    ⟨hmv.trans hlb.1, hlb.2⟩
  cases hcons : card.construct with
  | true =>
    rw [hcons] at he
    simp only [if_true, expure, Except.ok.injEq] at he
    subst he
    exact hstep
  | false =>
    rw [hcons] at he
    simp only [Bool.false_eq_true, if_false] at he
    exact logsEq_trans hstep (card_effects_logs hp fuel hA m _ b2 he)

theorem acquire_logs {h : Handler} (fuel : Nat) :
    ∀ (m : Move) (b b2 : Board),
      apply_acquire h fuel m b = Except.ok b2 → LogsEq b b2 := by
  intro m b b2 he
  cases htg : m.targets with
  | some tm => simp only [apply_acquire, htg] at he; cases he
  | none =>
    simp only [apply_acquire, htg] at he
    obtain ⟨cb, hrem, he⟩ := bind_eq_ok he
    obtain ⟨p, hpay, he⟩ := bind_eq_ok he
    simp only [expure, Except.ok.injEq] at he
    subst he
    obtain ⟨hp1, hp2, _⟩ := remove_center_ok hrem
    constructor
    · show (Player.acquire p cb.1).moves = b.player.moves
      rw [show (Player.acquire p cb.1).moves = p.moves from rfl, pay_ok hpay, hp1]
    · show cb.2.moves_played_this_turn = b.moves_played_this_turn
      exact hp2

theorem defeat_logs {h : Handler} (hp : HandlerPreservesLogs h) (fuel : Nat)
    (hA : ∀ m b b2, apply_to_board h fuel m b false = Except.ok b2 → LogsEq b b2) :
    ∀ (m : Move) (b b2 : Board),
      apply_defeat h fuel m b = Except.ok b2 → LogsEq b b2 := by
  intro m b b2 he
  simp only [apply_defeat] at he
  obtain ⟨cb, hrem, he⟩ := bind_eq_ok he
  obtain ⟨hp1, hp2, _⟩ := remove_center_ok hrem
  split at he
  · obtain ⟨bb, hace, he⟩ := bind_eq_ok he
    simp only [expure, Except.ok.injEq] at he
    subst he
    have hpow : LogsEq b { cb.2 with player := { cb.2.player with
        power_remaining := cb.2.player.power_remaining - cb.1.cost } } :=
      ⟨by simp [hp1], by simp [hp2]⟩
    have hdh := defeat_honor_logs ({ cb.2 with player := { cb.2.player with
        power_remaining := cb.2.player.power_remaining - cb.1.cost } }) cb.1
    exact logsEq_trans (logsEq_trans (logsEq_trans hpow hdh)
      (card_effects_logs hp fuel hA m _ bb hace)) (raise_event_logs bb _ _)
  · cases he

theorem activate_move_logs {h : Handler} (hp : HandlerPreservesLogs h) (fuel : Nat)
    (hA : ∀ m b b2, apply_to_board h fuel m b false = Except.ok b2 → LogsEq b b2) :
    ∀ (m : Move) (b b2 : Board),
      apply_activate h fuel m b = Except.ok b2 → LogsEq b b2 := by
  intro m b b2 he
  simp only [apply_activate] at he
  obtain ⟨p, hac, he⟩ := bind_eq_ok he
  have hstep : LogsEq b { b with player := p } :=
    ⟨(activate_construct_ok hac).1, rfl⟩
  exact logsEq_trans hstep (card_effects_logs hp fuel hA m _ b2 he)

end Ascension

namespace Ascension

theorem atb_logs {h : Handler} (hp : HandlerPreservesLogs h) :
    ∀ (fuel : Nat) (m : Move) (b b2 : Board),
      apply_to_board h fuel m b false = Except.ok b2 → LogsEq b b2 := by
  intro fuel
  induction fuel with
  | zero => intro m b b2 he; simp [apply_to_board] at he
  | succ f ih =>
    intro m b b2 he
    simp only [apply_to_board, Bool.false_eq_true, if_false] at he
    cases hmt : m.move_type <;> rw [hmt] at he
    · exact acquire_logs f m b b2 he
    · exact defeat_logs hp f ih m b b2 he
    · exact play_logs hp f ih m b b2 he
    · exact activate_move_logs hp f ih m b b2 he

theorem atb_record_logs {h : Handler} (hp : HandlerPreservesLogs h)
    (fuel : Nat) (m : Move) (b b2 : Board)
    (he : apply_to_board h fuel m b true = Except.ok b2) :
    b2.player.moves = b.player.moves ++ [m] ∧
    b2.moves_played_this_turn = b.moves_played_this_turn ++ [m] := by
  cases fuel with
  | zero => simp [apply_to_board] at he
  | succ f =>
    simp only [apply_to_board, if_true] at he
    have hA := fun m2 b3 b4 => atb_logs hp f m2 b3 b4
    have key : LogsEq { b with
        player := { b.player with moves := b.player.moves ++ [m] },
        moves_played_this_turn := b.moves_played_this_turn ++ [m] } b2 := by
      cases hmt : m.move_type <;> rw [hmt] at he
      · exact acquire_logs f m _ b2 he
      · exact defeat_logs hp f hA m _ b2 he
      · exact play_logs hp f hA m _ b2 he
      · exact activate_move_logs hp f hA m _ b2 he
    exact ⟨key.1, key.2⟩

/-- Claim C4: a move applied with `record = true` is appended to the current
player's personal move log and to the board's moves-played-this-turn log;
synthesized move descriptors are each constructed as a new `Move` and
applied with `record = false`, in the order the handler returned them, and —
provided the handler itself leaves the logs alone — an application with
`record = false` leaves both logs unchanged, so synthesized moves appear in
neither log while the originating move does. -/
theorem C4_move_recording (h : Handler) (hp : HandlerPreservesLogs h)
    (fuel : Nat) (m msil : Move) (b bsil b2 b3 : Board)
    (d : MoveDesc) (rest : List MoveDesc)
    (hrec : apply_to_board h fuel m b true = Except.ok b2)
    (hsil : apply_to_board h fuel msil bsil false = Except.ok b3) :
    (b2.player.moves = b.player.moves ++ [m]
      ∧ b2.moves_played_this_turn = b.moves_played_this_turn ++ [m])
    ∧ (b3.player.moves = bsil.player.moves
      ∧ b3.moves_played_this_turn = bsil.moves_played_this_turn)
    ∧ apply_pending h fuel b (d :: rest) =
        (Move.init d.1 d.2.1 d.2.2 >>= fun mv =>
          apply_to_board h fuel mv b false >>= fun bb =>
            apply_pending h fuel bb rest) := by
  refine ⟨atb_record_logs hp fuel m b b2 hrec, ?_, ?_⟩
  · exact ⟨(atb_logs hp fuel msil bsil b3 hsil).1,
      (atb_logs hp fuel msil bsil b3 hsil).2⟩
  · simp only [apply_pending]

def c4rec : Move := ⟨MoveType.defeat, "Mystic", some [(0, []), (1, [])]⟩

def c4sil : Move := ⟨MoveType.play, "Mystic", some [(0, []), (1, [])]⟩

def c4recResult : Board :=
  { player := { demoPlayer with
      power_remaining := 2, honor := 3, honor_for_defeating_monster := 0,
      moves := [c4rec] },
    moves_played_this_turn := [c4rec],
    center := [], card_dictionary := [demoCard],
    events := [("defeated_card", "Mystic")] }

def c4silResult : Board :=
  { demoBoard with player := { demoPlayer with hand := [], in_play := ["Mystic"] } }

theorem C4_witness :
    (c4recResult.player.moves = demoBoard.player.moves ++ [c4rec]
      ∧ c4recResult.moves_played_this_turn = demoBoard.moves_played_this_turn ++ [c4rec])
    ∧ (c4silResult.player.moves = demoBoard.player.moves
      ∧ c4silResult.moves_played_this_turn = demoBoard.moves_played_this_turn)
    ∧ apply_pending trivHandler 2 demoBoard [(MoveType.play, "A", none)] =
        (Move.init MoveType.play "A" none >>= fun mv =>
          apply_to_board trivHandler 2 mv demoBoard false >>= fun bb =>
            apply_pending trivHandler 2 bb []) :=
  C4_move_recording trivHandler (fun b i tg => logsEq_refl b) 2 c4rec c4sil
    demoBoard demoBoard c4recResult c4silResult (MoveType.play, "A", none) []
    (by simp [c4rec, c4recResult, apply_to_board, apply_defeat, demoBoard,
      demoPlayer, demoCard, Board.remove_card_from_center, activate_card_effects,
      Board.find_card, activate_effects, keys_filter_some, activate_list,
      activate_atom, apply_pending, get_effect_list, get_effect_list_of_children,
      TargetMap.hasKey, trivHandler, defeat_monster_honor, Board.give_honor,
      Board.raise_event])
    (by simp [c4sil, c4silResult, apply_to_board, apply_play, demoBoard,
      demoPlayer, demoCard, Board.find_card, lifebound_hero_honor,
      Player.play_card, activate_card_effects, activate_effects, keys_filter_some,
      activate_list, activate_atom, apply_pending, get_effect_list,
      get_effect_list_of_children, TargetMap.hasKey, trivHandler])

end Ascension

namespace Ascension

/-! ### Inert handlers: isolating the defeat arithmetic (for C6, C7) -/

/-- A handler that mutates nothing and synthesizes no moves; used to isolate
the honor/power bookkeeping of the Defeat handler from card effects. -/
def InertHandler (h : Handler) : Prop := ∀ b i tg, h b i tg = (b, [])

theorem inert_atom {h : Handler} (hI : InertHandler h) (fuel : Nat)
    (m : Move) (b : Board) (i : Nat) :
    activate_atom h fuel m b i = Except.ok b := by
  simp only [activate_atom, hI b i m.targets]
  simp [apply_pending]

theorem inert_list {h : Handler} (hI : InertHandler h) (fuel : Nat)
    (m : Move) : ∀ (l : List Nat) (b : Board),
      activate_list h fuel m b l = Except.ok b := by
  intro l
  induction l with
  | nil => intro b; simp [activate_list]
  | cons i rest ih => intro b; simp [activate_list, inert_atom hI, ih]

theorem inert_effects_ok {h : Handler} (hI : InertHandler h) (fuel : Nat)
    (m : Move) (e : Effect) (b b2 : Board)
    (he : activate_effects h fuel m b e = Except.ok b2) : b2 = b := by
  cases e with
  | simple i =>
    simp only [activate_effects] at he
    rw [inert_atom hI] at he
    exact (Except.ok.injEq _ _ ▸ he).symm
  | compound ct es =>
    simp only [activate_effects] at he
    obtain ⟨sel, _, he⟩ := bind_eq_ok he
    cases ct with
    | AND =>
      rw [inert_list hI fuel m sel b] at he
      exact (Except.ok.injEq _ _ ▸ he).symm
    | OR =>
      cases sel with
      | nil => exact absurd he (by simp)
      | cons i rest =>
        cases rest with
        | nil =>
          have he2 : activate_atom h fuel m b i = Except.ok b2 := he
          rw [inert_atom hI] at he2
          exact (Except.ok.injEq _ _ ▸ he2).symm
        | cons j r2 => exact absurd he (by simp)

theorem inert_card_effects_ok {h : Handler} (hI : InertHandler h) (fuel : Nat)
    (m : Move) (b b2 : Board)
    (he : activate_card_effects h fuel m b = Except.ok b2) : b2 = b := by
  simp only [activate_card_effects] at he
  obtain ⟨card, _, he⟩ := bind_eq_ok he
  exact inert_effects_ok hI fuel m card.effect b b2 he

/-- Claim C6: a successful Defeat of a card not named "Cultist" grants the
current player exactly their current `honor_for_defeating_monster` bonus and
zeroes the bonus (so a second Defeat grants nothing more until the bonus is
replenished); a Defeat of the card named "Cultist" grants no defeat-bonus
honor and leaves the bonus untouched, whatever its value. -/
theorem C6_defeat_honor (h : Handler) (hI : InertHandler h) (fuel : Nat)
    (m : Move) (b b2 : Board) (cb : Card × Board)
    (hrem : b.remove_card_from_center m.card_name = Except.ok cb)
    (hok : apply_defeat h fuel m b = Except.ok b2) :
    b2.player.honor = (if cb.1.name = "Cultist" then b.player.honor
      else b.player.honor + b.player.honor_for_defeating_monster)
    ∧ b2.player.honor_for_defeating_monster =
        (if cb.1.name = "Cultist" then b.player.honor_for_defeating_monster
         else 0) := by
  have hply := (remove_center_ok hrem).1
  simp only [apply_defeat] at hok
  rw [hrem] at hok
  simp only [exbind_ok] at hok
  split at hok
  · obtain ⟨bb, hace, hok⟩ := bind_eq_ok hok
    have hbb := inert_card_effects_ok hI fuel m _ bb hace
    simp only [expure, Except.ok.injEq] at hok
    subst hok
    subst hbb
    by_cases hc : cb.1.name = "Cultist" <;>
      simp [Board.raise_event, defeat_monster_honor, hc, Board.give_honor, hply]
  · cases hok

/-- Claim C7: with the defeated card removed from the center, a Defeat by a
player whose remaining power is below the card's cost fails with
`InsufficientPower`; a successful Defeat debits exactly the card's cost from
the player's remaining power (and implies the power was sufficient). -/
theorem C7_defeat_power (h : Handler) (hI : InertHandler h) (fuel : Nat)
    (m : Move) (b : Board) (cb : Card × Board)
    (hrem : b.remove_card_from_center m.card_name = Except.ok cb) :
    (b.player.power_remaining < cb.1.cost →
      apply_defeat h fuel m b = Except.error Err.insufficientPower)
    ∧ (∀ b2, apply_defeat h fuel m b = Except.ok b2 →
        b2.player.power_remaining = b.player.power_remaining - cb.1.cost
        ∧ cb.1.cost ≤ b.player.power_remaining) := by
  have hply := (remove_center_ok hrem).1
  constructor
  · intro hlow
    simp only [apply_defeat]
    rw [hrem]
    simp only [exbind_ok]
    rw [if_neg]
    rw [hply]
    omega
  · intro b2 hok
    simp only [apply_defeat] at hok
    rw [hrem] at hok
    simp only [exbind_ok] at hok
    split at hok
    case isTrue hle =>
      obtain ⟨bb, hace, hok⟩ := bind_eq_ok hok
      have hbb := inert_card_effects_ok hI fuel m _ bb hace
      simp only [expure, Except.ok.injEq] at hok
      subst hok
      subst hbb
      constructor
      · by_cases hc : cb.1.name = "Cultist" <;>
          simp [Board.raise_event, defeat_monster_honor, hc, Board.give_honor, hply]
      · rw [hply] at hle
        exact hle
    case isFalse => cases hok

end Ascension

namespace Ascension

def cultCard : Card :=
  { name := "Cultist", cost := 2, lifebound := false, hero := false,
    construct := false, effect := Effect.simple 0 }

def cultBoard : Board :=
  { player := demoPlayer, moves_played_this_turn := [], center := [cultCard],
    card_dictionary := [cultCard], events := [] }

def mystDefeatResult : Board :=
  { player := { demoPlayer with
      power_remaining := 2, honor := 3, honor_for_defeating_monster := 0 },
    moves_played_this_turn := [], center := [], card_dictionary := [demoCard],
    events := [("defeated_card", "Mystic")] }

def cultDefeatResult : Board :=
  { player := { demoPlayer with power_remaining := 3 },
    moves_played_this_turn := [], center := [], card_dictionary := [cultCard],
    events := [("defeated_card", "Cultist")] }

def lowBoard : Board :=
  { demoBoard with player := { demoPlayer with power_remaining := 1 } }

theorem C6_witness :
    (mystDefeatResult.player.honor =
        (if demoCard.name = "Cultist" then demoBoard.player.honor
         else demoBoard.player.honor + demoBoard.player.honor_for_defeating_monster)
      ∧ mystDefeatResult.player.honor_for_defeating_monster =
        (if demoCard.name = "Cultist" then demoBoard.player.honor_for_defeating_monster
         else 0))
    ∧ (cultDefeatResult.player.honor =
        (if cultCard.name = "Cultist" then cultBoard.player.honor
         else cultBoard.player.honor + cultBoard.player.honor_for_defeating_monster)
      ∧ cultDefeatResult.player.honor_for_defeating_monster =
        (if cultCard.name = "Cultist" then cultBoard.player.honor_for_defeating_monster
         else 0)) :=
  ⟨C6_defeat_honor trivHandler (fun b i tg => rfl) 1
      ⟨MoveType.defeat, "Mystic", some [(0, []), (1, [])]⟩ demoBoard
      mystDefeatResult (demoCard, { demoBoard with center := [] }) rfl
      (by simp [apply_defeat, demoBoard, demoPlayer, demoCard, mystDefeatResult,
        Board.remove_card_from_center, activate_card_effects, Board.find_card,
        activate_effects, keys_filter_some, activate_list, activate_atom,
        apply_pending, get_effect_list, get_effect_list_of_children,
        TargetMap.hasKey, trivHandler, defeat_monster_honor, Board.give_honor,
        Board.raise_event]),
   C6_defeat_honor trivHandler (fun b i tg => rfl) 1
      ⟨MoveType.defeat, "Cultist", some []⟩ cultBoard
      cultDefeatResult (cultCard, { cultBoard with center := [] }) rfl
      (by simp [apply_defeat, cultBoard, demoPlayer, cultCard, cultDefeatResult,
        Board.remove_card_from_center, activate_card_effects, Board.find_card,
        activate_effects, activate_atom, apply_pending, trivHandler,
        defeat_monster_honor, Board.give_honor, Board.raise_event])⟩

theorem C7_witness :
    apply_defeat trivHandler 1 ⟨MoveType.defeat, "Mystic", some [(0, []), (1, [])]⟩
        lowBoard = Except.error Err.insufficientPower
    ∧ (mystDefeatResult.player.power_remaining =
          demoBoard.player.power_remaining - demoCard.cost
        ∧ demoCard.cost ≤ demoBoard.player.power_remaining) :=
  ⟨(C7_defeat_power trivHandler (fun b i tg => rfl) 1
      ⟨MoveType.defeat, "Mystic", some [(0, []), (1, [])]⟩ lowBoard
      (demoCard, { lowBoard with center := [] }) rfl).1 (by decide),
   (C7_defeat_power trivHandler (fun b i tg => rfl) 1
      ⟨MoveType.defeat, "Mystic", some [(0, []), (1, [])]⟩ demoBoard
      (demoCard, { demoBoard with center := [] }) rfl).2 mystDefeatResult
      (by simp [apply_defeat, demoBoard, demoPlayer, demoCard, mystDefeatResult,
        Board.remove_card_from_center, activate_card_effects, Board.find_card,
        activate_effects, keys_filter_some, activate_list, activate_atom,
        apply_pending, get_effect_list, get_effect_list_of_children,
        TargetMap.hasKey, trivHandler, defeat_monster_honor, Board.give_honor,
        Board.raise_event])⟩

end Ascension

namespace Ascension

/-- Claim C8: a Play move resolves the played card's effect tree immediately
exactly when the card is not a construct — playing a construct ends at the
hand-to-play transfer with no effect resolution — while an Activate move
first marks the construct activated (failing if it is not in play or already
activated) and only then resolves its effect tree. -/
theorem C8_construct_deferral (h : Handler) (fuel : Nat) (m : Move)
    (b : Board) (card : Card) (p p2 : Player)
    (hfind : b.find_card m.card_name = Except.ok card)
    (hplay : (lifebound_hero_honor b card).player.play_card m.card_name =
      Except.ok p)
    (hact : b.player.activate_construct m.card_name = Except.ok p2) :
    (card.construct = true →
      apply_play h fuel m b =
        Except.ok { lifebound_hero_honor b card with player := p })
    ∧ (card.construct = false →
      apply_play h fuel m b =
        activate_card_effects h fuel m { lifebound_hero_honor b card with player := p })
    ∧ apply_activate h fuel m b =
        activate_card_effects h fuel m { b with player := p2 }
    ∧ p2.activated_constructs = b.player.activated_constructs ++ [m.card_name] := by
  refine ⟨?_, ?_, ?_, (activate_construct_ok hact).2⟩
  · intro hc
    simp only [apply_play, hfind, exbind_ok, hplay, hc, if_true, expure]
  · intro hc
    simp only [apply_play, hfind, exbind_ok, hplay, hc, Bool.false_eq_true, if_false]
  · simp only [apply_activate, hact, exbind_ok]

def shrineCard : Card :=
  { name := "Shrine", cost := 2, lifebound := false, hero := false,
    construct := true, effect := Effect.simple 0 }

def shrinePlayer : Player :=
  { honor := 0, power_remaining := 5, honor_for_lifebound_hero := 0,
    honor_for_defeating_monster := 0, moves := [], hand := ["Shrine"],
    in_play := ["Shrine"], activated_constructs := [], acquired := [],
    resources := 0 }

def shrineBoard : Board :=
  { player := shrinePlayer, moves_played_this_turn := [], center := [],
    card_dictionary := [shrineCard], events := [] }

def shrinePlayed : Player :=
  { shrinePlayer with hand := [], in_play := ["Shrine", "Shrine"] }

def shrineActivated : Player :=
  { shrinePlayer with activated_constructs := ["Shrine"] }

def mystBoard2 : Board :=
  { demoBoard with player := { demoPlayer with in_play := ["Mystic"] } }

def mystPlayed : Player :=
  { demoPlayer with hand := [], in_play := ["Mystic", "Mystic"] }

def mystActivated : Player :=
  { demoPlayer with in_play := ["Mystic"], activated_constructs := ["Mystic"] }

theorem C8_witness :
    apply_play trivHandler 1 ⟨MoveType.play, "Shrine", some []⟩ shrineBoard =
      Except.ok { lifebound_hero_honor shrineBoard shrineCard with player := shrinePlayed }
    ∧ apply_activate trivHandler 1 ⟨MoveType.play, "Shrine", some []⟩ shrineBoard =
        activate_card_effects trivHandler 1 ⟨MoveType.play, "Shrine", some []⟩
          { shrineBoard with player := shrineActivated }
    ∧ shrineActivated.activated_constructs =
        shrineBoard.player.activated_constructs ++ ["Shrine"]
    ∧ apply_play trivHandler 1 ⟨MoveType.play, "Mystic", some []⟩ mystBoard2 =
        activate_card_effects trivHandler 1 ⟨MoveType.play, "Mystic", some []⟩
          { lifebound_hero_honor mystBoard2 demoCard with player := mystPlayed } :=
  ⟨(C8_construct_deferral trivHandler 1 ⟨MoveType.play, "Shrine", some []⟩
      shrineBoard shrineCard shrinePlayed shrineActivated rfl rfl rfl).1 rfl,
   (C8_construct_deferral trivHandler 1 ⟨MoveType.play, "Shrine", some []⟩
      shrineBoard shrineCard shrinePlayed shrineActivated rfl rfl rfl).2.2.1,
   (C8_construct_deferral trivHandler 1 ⟨MoveType.play, "Shrine", some []⟩
      shrineBoard shrineCard shrinePlayed shrineActivated rfl rfl rfl).2.2.2,
   (C8_construct_deferral trivHandler 1 ⟨MoveType.play, "Mystic", some []⟩
      mystBoard2 demoCard mystPlayed mystActivated rfl rfl rfl).2.1 rfl⟩

end Ascension
